import Mathlib

/-!
# Verification of the srcds log parser

A shallow embedding of the two-stage decoder of the `srcds-log-parser`
crate.  Strings are modelled as `List Char` (the log grammar is ASCII, so
Rust byte indices and character indices coincide on the inputs considered
here) and byte buffers as `List Nat` with values below 256.

The grammar stage (`src/parser/message_type/parsers.rs`, the richer
variant that the specification designates as authoritative) is embedded
with nom-style parsers over `List Char`; the framing stage
(`src/parser.rs`, `LogMessage::from_bytes`) is embedded over `List Nat`.
Rust panics (an `unwrap` on a failed integer conversion, an
out-of-bounds slice) are modelled explicitly: parsers return `PRes.panic`
and `LogMessage.fromBytes` returns `none` when the Rust code would panic.
-/

set_option maxRecDepth 4000

/-- Result of a nom-style parser over character lists.  `ok rest val` is
nom's `Ok((rest, val))`, `fail` is `Err(Error(..))`, and `panic` marks a
Rust panic (an `unwrap` on a failed conversion) that unwinds instead of
returning. -/
inductive PRes (α : Type) where
  | ok (rest : List Char) (val : α)
  | fail
  | panic
deriving Repr, DecidableEq

abbrev Parser (α : Type) := List Char → PRes α

/-- Sequencing in the style of Rust `let (i, x) = p(i)?`, propagating
`fail` and letting `panic` unwind. -/
def pbind {α β : Type} (r : PRes α) (f : List Char → α → PRes β) : PRes β :=
  match r with
  | .ok i v => f i v
  | .fail => .fail
  | .panic => .panic

/-- nom `tag`: match a case-sensitive literal, returning the matched slice. -/
def tag (t : List Char) : Parser (List Char) := fun i =>
  if t.isPrefixOf i then .ok (i.drop t.length) t else .fail

/-- nom `tag_no_case` on `&str`: ASCII case-insensitive literal. -/
def tagNoCase (t : List Char) : Parser (List Char) := fun i =>
  if (i.take t.length).map Char.toLower = t.map Char.toLower then
    .ok (i.drop t.length) (i.take t.length)
  else .fail

/-- nom `char`. -/
def charP (c : Char) : Parser Char := fun i =>
  match i with
  | c2 :: r => if c2 = c then .ok r c else .fail
  | [] => .fail

/-- Index of the first occurrence of `t` as a contiguous sublist
(the search underlying nom `take_until`). -/
def firstOccur (t : List Char) : List Char → Option Nat
  | [] => if t.isPrefixOf ([] : List Char) then some 0 else none
  | c :: r => if t.isPrefixOf (c :: r) then some 0 else (firstOccur t r).map (· + 1)

/-- nom `take_until`: consume everything up to (excluding) the first
occurrence of `t`; fail when `t` does not occur. -/
def takeUntil (t : List Char) : Parser (List Char) := fun i =>
  match firstOccur t i with
  | some n => .ok (i.drop n) (i.take n)
  | none => .fail

/-- nom `take_until1`: like `take_until`, but the consumed part must be
non-empty. -/
def takeUntil1 (t : List Char) : Parser (List Char) := fun i =>
  match firstOccur t i with
  | some 0 => .fail
  | some n => .ok (i.drop n) (i.take n)
  | none => .fail

/-- nom `take_while`: maximal (possibly empty) prefix satisfying `p`. -/
def takeWhileP (p : Char → Bool) : Parser (List Char) := fun i =>
  .ok (i.dropWhile p) (i.takeWhile p)

/-- nom `take_while1`. -/
def takeWhile1P (p : Char → Bool) : Parser (List Char) := fun i =>
  match i.takeWhile p with
  | [] => .fail
  | l => .ok (i.dropWhile p) l

/-- nom `digit1`: one or more ASCII digits. -/
def digit1 : Parser (List Char) := takeWhile1P Char.isDigit

/-- nom `delimited`. -/
def delimited {α β γ : Type} (a : Parser α) (b : Parser β) (c : Parser γ) :
    Parser β := fun i =>
  pbind (a i) fun i _ => pbind (b i) fun i v => pbind (c i) fun i _ => .ok i v

/-- nom `preceded`. -/
def preceded {α β : Type} (a : Parser α) (b : Parser β) : Parser β := fun i =>
  pbind (a i) fun i _ => b i

/-- nom `.or` / `.choice`: first success wins; a `fail` tries the next
alternative, anything else (success or panic) is returned as is. -/
def orP {α : Type} (p q : Parser α) : Parser α := fun i =>
  match p i with
  | .fail => q i
  | r => r

/-- Decimal value of a digit run (Rust `str::parse` on an all-digit
string never fails except by overflow, which is checked at use sites). -/
def digitsToNat (l : List Char) : Nat := l.foldl (fun n c => n * 10 + (c.toNat - 48)) 0

/-- `message_type.rs` `User`: a source user's data. -/
structure User where
  name : List Char
  uid : Nat
  steamid : List Char
  team : List Char
deriving Repr, DecidableEq

/-- `message_type.rs` `MessageType`.  IPv4 addresses are quadruples of
octet values; ports and uids are `Nat` with their width enforced where
the code enforces it. -/
inductive MessageType where
  | LogFileStarted (file game version : List Char)
  | LogFileClosed
  | ServerCvarsStart
  | ServerCvar (var value : List Char)
  | ServerCvarsEnd
  | LoadingMap (name : List Char)
  | StartedMap (name crc : List Char)
  | Rcon (ip : Nat × Nat × Nat × Nat) (port : Nat) (command : List Char)
  | ChatMessage (sender : User) (message : List Char) (team : Bool)
  | Connected (u : User) (ip : Nat × Nat × Nat × Nat) (port : Nat)
  | Disconnected (u : User) (reason : List Char)
  | JoinedTeam (u : User) (team : List Char)
  | InterPlayerAction (sender : User) (action : List Char) (against : User)
  | Unknown
deriving Repr, DecidableEq

/-- Regex `\w` restricted to ASCII (the inputs considered are ASCII). -/
def isWordChar (c : Char) : Bool := c.isAlphanum || c = '_'

/-- One expected character. -/
def expectChar (c : Char) : List Char → Option (List Char)
  | x :: r => if x = c then some r else none
  | [] => none

/-- The fixed continuation of the identity regex
`"(.*?)<(\d+)><(\[U:\d:\d+\])><(\w*)?>"` after a candidate `<`:
`(\d+)><(\[U:\d:\d+\])><(\w*)?>"`.  The quantifiers `\d+` and `\w*` are
each followed by a character outside their class, so the backtracking
engine behaves as maximal munch; `\d` after `U:` is a single digit.
Returns the captured `(uid, universe digit, account digit run, team)`
together with the input following the closing quote. -/
def userTail (l : List Char) : Option (List Char × Char × List Char × List Char × List Char) :=
  let uid := l.takeWhile Char.isDigit
  if uid = [] then none
  else
    match expectChar '>' (l.dropWhile Char.isDigit) with
    | none => none
    | some l =>
      match expectChar '<' l with
      | none => none
      | some l =>
        match expectChar '[' l with
        | none => none
        | some l =>
          match expectChar 'U' l with
          | none => none
          | some l =>
            match expectChar ':' l with
            | none => none
            | some l =>
              match l with
              | [] => none
              | d :: l =>
                if d.isDigit then
                  match expectChar ':' l with
                  | none => none
                  | some l =>
                    let ds := l.takeWhile Char.isDigit
                    if ds = [] then none
                    else
                      match expectChar ']' (l.dropWhile Char.isDigit) with
                      | none => none
                      | some l2 =>
                        match expectChar '>' l2 with
                        | none => none
                        | some l2 =>
                          match expectChar '<' l2 with
                          | none => none
                          | some l2 =>
                            let team := l2.takeWhile isWordChar
                            match expectChar '>' (l2.dropWhile isWordChar) with
                            | none => none
                            | some l3 =>
                              match expectChar '"' l3 with
                              | none => none
                              | some l4 => some (uid, d, ds, team, l4)
                else none

/-- The lazy `(.*?)` of the identity regex: starting right after an
opening `"`, take the shortest name such that the fixed continuation
matches.  `.` does not match a newline, so the scan dies at `'\n'`;
at a `<` whose continuation fails, the `<` is absorbed into the name. -/
def scanName (acc : List Char) : List Char → Option (List Char × List Char × Char × List Char × List Char)
  | [] => none
  | c :: cs =>
    if c = '<' then
      match userTail cs with
      | some (uid, d, ds, team, _) => some (acc.reverse, uid, d, ds, team)
      | none => scanName (c :: acc) cs
    else if c = '\n' then none
    else scanName (c :: acc) cs

/-- Leftmost-first search of the identity regex over the whole input
(`Regex::captures` is unanchored): the earliest start position admitting
a match wins.  A match can only start at a `"`. -/
def findUserStart : List Char → Option (List Char × List Char × Char × List Char × List Char)
  | [] => none
  | c :: cs =>
    if c = '"' then
      match scanName [] cs with
      | some caps => some caps
      | none => findUserStart cs
    else findUserStart cs

/-- `parsers.rs` `user`: search the identity regex anywhere in the input,
then return `&i[len..]` where `len` is the length of the match — counted
from the *front* of the input, not from the match position.  The uid is
converted with `parse::<u32>().unwrap()`, which panics above `2^32 - 1`.
The match has length `14 + |name| + |uid| + |account run| + |team|`
(14 fixed characters `"` `<` `>` `<` `[` `U` `:` d `:` `]` `>` `<` `>` `"`). -/
def user : Parser User := fun i =>
  match findUserStart i with
  | none => .fail
  | some (n, u, d, ds, t) =>
    let len := 14 + n.length + u.length + ds.length + t.length
    if digitsToNat u < 2 ^ 32 then
      .ok (i.drop len) ⟨n, digitsToNat u, '[' :: 'U' :: ':' :: d :: ':' :: (ds ++ [']']), t⟩
    else .panic

/-- `parsers.rs` `ipv4`: four digit runs separated by dots; each octet is
converted with `parse::<u8>().unwrap()`, which panics above 255. -/
def ipv4 : Parser (Nat × Nat × Nat × Nat) := fun i =>
  pbind (digit1 i) fun i a =>
  pbind (charP '.' i) fun i _ =>
  pbind (digit1 i) fun i b =>
  pbind (charP '.' i) fun i _ =>
  pbind (digit1 i) fun i c =>
  pbind (charP '.' i) fun i _ =>
  pbind (digit1 i) fun i d =>
  if digitsToNat a ≤ 255 ∧ digitsToNat b ≤ 255 ∧ digitsToNat c ≤ 255 ∧ digitsToNat d ≤ 255 then
    .ok i (digitsToNat a, digitsToNat b, digitsToNat c, digitsToNat d)
  else .panic

/-- `parsers.rs` `port`: a digit run; an overflowing `parse::<u16>` is a
clean parse failure (`fail(i)`), not a panic. -/
def port : Parser Nat := fun i =>
  pbind (digit1 i) fun i p =>
  if digitsToNat p < 2 ^ 16 then .ok i (digitsToNat p) else .fail

/-- `parsers.rs` `ipv4_with_port`. -/
def ipv4_with_port : Parser ((Nat × Nat × Nat × Nat) × Nat) := fun i =>
  pbind (ipv4 i) fun i ip =>
  pbind (charP ':' i) fun i _ =>
  pbind (port i) fun i p => .ok i (ip, p)

/-- `parsers.rs` `kv_pair`: `(` + run up to the first space + space +
`"` + run up to the first quote + `"` + `)`.  Only the quoted-value form
exists in this variant. -/
def kv_pair : Parser (List Char × List Char) :=
  delimited (charP '(')
    (fun i =>
      pbind (takeUntil [' '] i) fun i k =>
      pbind (preceded (charP ' ') (delimited (charP '"') (takeUntil ['"']) (charP '"')) i)
        fun i v => .ok i (k, v))
    (charP ')')

/-- `parsers.rs` `rcon`. -/
def rcon : Parser MessageType := fun i =>
  pbind (tagNoCase "rcon from ".toList i) fun i _ =>
  pbind (delimited (charP '"') ipv4_with_port (charP '"') i) fun i ipp =>
  pbind (tag ": command ".toList i) fun i _ =>
  pbind (delimited (charP '"') (takeUntil1 ['"']) (charP '"') i) fun i command =>
  .ok i (.Rcon ipp.1 ipp.2 command)

/-- `parsers.rs` `log_file_closed`: checks the tag but (as in the source,
`let _ = ...`) does not consume it. -/
def log_file_closed : Parser MessageType := fun i =>
  pbind (tagNoCase "log file closed".toList i) fun _ _ => .ok i .LogFileClosed

/-- `parsers.rs` `server_cvars_start` (non-consuming, as in the source). -/
def server_cvars_start : Parser MessageType := fun i =>
  pbind (tagNoCase "server cvars start".toList i) fun _ _ => .ok i .ServerCvarsStart

/-- `parsers.rs` `server_cvars_end` (non-consuming, as in the source). -/
def server_cvars_end : Parser MessageType := fun i =>
  pbind (tagNoCase "server cvars end".toList i) fun _ _ => .ok i .ServerCvarsEnd

/-- `parsers.rs` `loading_map` (case-sensitive tag). -/
def loading_map : Parser MessageType := fun i =>
  pbind (tag "loading map ".toList i) fun i _ =>
  pbind (delimited (charP '"') (takeUntil1 ['"']) (charP '"') i) fun i name =>
  .ok i (.LoadingMap name)

/-- `parsers.rs` `starting_map`. -/
def starting_map : Parser MessageType := fun i =>
  pbind (tagNoCase "started map ".toList i) fun i _ =>
  pbind (delimited (charP '"') (takeUntil1 ['"']) (charP '"') i) fun i name =>
  pbind (takeWhileP (fun c => c.isWhitespace) i) fun i _ =>
  pbind (kv_pair i) fun i kv =>
  .ok i (.StartedMap name kv.2)

/-- `parsers.rs` `log_file_started`. -/
def log_file_started : Parser MessageType := fun i =>
  pbind (tagNoCase "log file started ".toList i) fun i _ =>
  pbind (kv_pair i) fun i kvf =>
  pbind (takeWhile1P (fun c => c.isWhitespace) i) fun i _ =>
  pbind (kv_pair i) fun i kvg =>
  pbind (takeWhile1P (fun c => c.isWhitespace) i) fun i _ =>
  pbind (kv_pair i) fun i kvv =>
  .ok i (.LogFileStarted kvf.2 kvg.2 kvv.2)

/-- `parsers.rs` `join_team_msg`. -/
def join_team_msg : Parser MessageType := fun i =>
  pbind (user i) fun i u =>
  pbind (tag " joined team ".toList i) fun i _ =>
  pbind (delimited (charP '"') (takeUntil1 ['"']) (charP '"') i) fun i team =>
  .ok i (.JoinedTeam u team)

/-- `parsers.rs` `inter_player_action`. -/
def inter_player_action : Parser MessageType := fun i =>
  pbind (user i) fun i u =>
  pbind (tagNoCase " triggered ".toList i) fun i _ =>
  pbind (delimited (charP '"') (takeUntil1 ['"']) (charP '"') i) fun i action =>
  pbind (tagNoCase " against ".toList i) fun i _ =>
  pbind (user i) fun i v =>
  .ok i (.InterPlayerAction u action v)

/-- `parsers.rs` `disconnect_message` (the closing delimiter is the
two-character tag `")` ). -/
def disconnect_message : Parser MessageType := fun i =>
  pbind (user i) fun i u =>
  pbind (tag " disconnected (reason ".toList i) fun i _ =>
  pbind (delimited (charP '"') (takeUntil1 ['"']) (tag "\")".toList) i) fun i reason =>
  .ok i (.Disconnected u reason)

/-- `parsers.rs` `connect_message`. -/
def connect_message : Parser MessageType := fun i =>
  pbind (user i) fun i u =>
  pbind (tag " connected, address ".toList i) fun i _ =>
  pbind (delimited (charP '"') ipv4_with_port (charP '"') i) fun i ipp =>
  .ok i (.Connected u ipp.1 ipp.2)

/-- `parsers.rs` `chat_message`: `(tag(" say "), tag(" say_team ")).choice`,
the team flag set by comparing the matched tag. -/
def chat_message : Parser MessageType := fun i =>
  pbind (user i) fun i u =>
  pbind (orP (tag " say ".toList) (tag " say_team ".toList) i) fun i say =>
  pbind (delimited (charP '"') (takeUntil1 ['"']) (charP '"') i) fun i msg =>
  .ok i (.ChatMessage u msg (say = " say_team ".toList))

/-- `parsers.rs` `get_message_type`: the fixed precedence chain,
left-nested `.or` exactly as in the source. -/
def get_message_type : Parser MessageType :=
  orP (orP (orP (orP (orP (orP (orP (orP (orP (orP (orP
    log_file_started log_file_closed) server_cvars_start) server_cvars_end)
    loading_map) starting_map) rcon) chat_message) connect_message)
    disconnect_message) inter_player_action) join_team_msg

/-- `message_type.rs` `MessageType::from_message`: run the dispatcher,
discard any unconsumed remainder, map a parse error to `Unknown`.
`none` marks the propagation of a Rust panic out of a shape parser. -/
def MessageType.fromMessage (msg : List Char) : Option MessageType :=
  match get_message_type msg with
  | .ok _ m => some m
  | .fail => some .Unknown
  | .panic => none

/-! ## Framing stage (`src/parser.rs`) -/

/-- Is a byte a UTF-8 continuation byte `0x80..=0xBF`? -/
def contB (b : Nat) : Bool := decide (128 ≤ b ∧ b ≤ 191)

/-- U+FFFD replacement character. -/
def repl : Char := Char.ofNat 0xFFFD

/-- Fuel-driven worker for `lossyUtf8`; fuel bounds the number of decoded
units, and each step consumes at least one byte. -/
def lossyUtf8Go : Nat → List Nat → List Char
  | 0, _ => []
  | _ + 1, [] => []
  | fuel + 1, b :: l =>
    if b < 128 then Char.ofNat b :: lossyUtf8Go fuel l
    else if 194 ≤ b ∧ b ≤ 223 then
      match l with
      | c :: l2 =>
        if contB c then Char.ofNat ((b - 192) * 64 + (c - 128)) :: lossyUtf8Go fuel l2
        else repl :: lossyUtf8Go fuel l
      | [] => [repl]
    else if 224 ≤ b ∧ b ≤ 239 then
      match l with
      | c :: l2 =>
        if (if b = 224 then decide (160 ≤ c ∧ c ≤ 191)
            else if b = 237 then decide (128 ≤ c ∧ c ≤ 159)
            else contB c) then
          match l2 with
          | c2 :: l3 =>
            if contB c2 then
              Char.ofNat ((b - 224) * 4096 + (c - 128) * 64 + (c2 - 128)) :: lossyUtf8Go fuel l3
            else repl :: lossyUtf8Go fuel l2
          | [] => [repl]
        else repl :: lossyUtf8Go fuel l
      | [] => [repl]
    else if 240 ≤ b ∧ b ≤ 244 then
      match l with
      | c :: l2 =>
        if (if b = 240 then decide (144 ≤ c ∧ c ≤ 191)
            else if b = 244 then decide (128 ≤ c ∧ c ≤ 143)
            else contB c) then
          match l2 with
          | c2 :: l3 =>
            if contB c2 then
              match l3 with
              | c3 :: l4 =>
                if contB c3 then
                  Char.ofNat ((b - 240) * 262144 + (c - 128) * 4096 + (c2 - 128) * 64 + (c3 - 128))
                    :: lossyUtf8Go fuel l4
                else repl :: lossyUtf8Go fuel l3
              | [] => [repl]
            else repl :: lossyUtf8Go fuel l2
          | [] => [repl]
        else repl :: lossyUtf8Go fuel l
      | [] => [repl]
    else repl :: lossyUtf8Go fuel l

/-- Rust `String::from_utf8_lossy` (standard library, external to the
crate): UTF-8 decoding where each maximal invalid subpart is replaced by
U+FFFD; never fails. -/
def lossyUtf8 (l : List Nat) : List Char := lossyUtf8Go l.length l

/-- The calendar date-time carried by a decoded line (chrono
`NaiveDateTime` restricted to second precision, no timezone). -/
structure Timestamp where
  year : Nat
  month : Nat
  day : Nat
  hour : Nat
  minute : Nat
  second : Nat
deriving Repr, DecidableEq

def isLeapYear (y : Nat) : Bool := (y % 4 == 0 && y % 100 != 0) || y % 400 == 0

def daysInMonth (y m : Nat) : Nat :=
  if m = 2 then (if isLeapYear y then 29 else 28)
  else if m = 4 ∨ m = 6 ∨ m = 9 ∨ m = 11 then 30
  else 31

/-- Two ASCII digits. -/
def parseDigit2 : List Char → Option (Nat × List Char)
  | a :: b :: r =>
    if a.isDigit && b.isDigit then some ((a.toNat - 48) * 10 + (b.toNat - 48), r) else none
  | _ => none

/-- Four ASCII digits. -/
def parseDigit4 : List Char → Option (Nat × List Char)
  | a :: b :: c :: d :: r =>
    if a.isDigit && b.isDigit && c.isDigit && d.isDigit then
      some (((a.toNat - 48) * 10 + (b.toNat - 48)) * 100 + (c.toNat - 48) * 10 + (d.toNat - 48), r)
    else none
  | _ => none

/-- Modelled from the spec: stands in for chrono
`NaiveDateTime::parse_and_remainder` (an external library, not part of
src/) with the format string `"%m/%d/%Y - %H:%M:%S: "`.  Following the
spec's description — `month/day/year - hour:minute:second: `, all fields
fixed-width, 24-hour clock — it consumes a fixed-width timestamp prefix,
validates the calendar date and clock time, and returns the parsed
timestamp with the verbatim remainder. -/
def parseTimestamp (l : List Char) : Option (Timestamp × List Char) :=
  match parseDigit2 l with
  | none => none
  | some (mo, l) =>
    match expectChar '/' l with
    | none => none
    | some l =>
      match parseDigit2 l with
      | none => none
      | some (da, l) =>
        match expectChar '/' l with
        | none => none
        | some l =>
          match parseDigit4 l with
          | none => none
          | some (yr, l) =>
            match expectChar ' ' l with
            | none => none
            | some l =>
              match expectChar '-' l with
              | none => none
              | some l =>
                match expectChar ' ' l with
                | none => none
                | some l =>
                  match parseDigit2 l with
                  | none => none
                  | some (ho, l) =>
                    match expectChar ':' l with
                    | none => none
                    | some l =>
                      match parseDigit2 l with
                      | none => none
                      | some (mi, l) =>
                        match expectChar ':' l with
                        | none => none
                        | some l =>
                          match parseDigit2 l with
                          | none => none
                          | some (se, l) =>
                            match expectChar ':' l with
                            | none => none
                            | some l =>
                              match expectChar ' ' l with
                              | none => none
                              | some l =>
                                if 1 ≤ mo ∧ mo ≤ 12 ∧ 1 ≤ da ∧ da ≤ daysInMonth yr mo ∧
                                    ho < 24 ∧ mi < 60 ∧ se < 60 then
                                  some (⟨yr, mo, da, ho, mi, se⟩, l)
                                else none

/-- `parser.rs` `LogParseError`. -/
inductive LogParseError where
  | TooShort
  | InvalidHeader
  | BadPasswordByte (b : Nat)
  | NoMagicStringEnd
  | BadTimestamp
deriving Repr, DecidableEq

/-- `parser.rs` `LogMessage`. -/
structure LogMessage where
  timestamp : Timestamp
  message : List Char
  secret : Option (List Char)
deriving Repr, DecidableEq

/-- `data.iter().position(|&e| e == MAGIC_STRING_END)` with
`MAGIC_STRING_END = 0x4C` (`'L'` = 76). -/
def findMarker : List Nat → Option Nat
  | [] => none
  | b :: r => if b = 76 then some 0 else (findMarker r).map (· + 1)

/-- The `if header.len() > 4 && header[..4] == PACKET_HEADER` strip of the
four `0xFF` datagram marker bytes. -/
def stripUdp (h : List Nat) : List Nat :=
  if 4 < h.length ∧ h.take 4 = [255, 255, 255, 255] then h.drop 4 else h

/-- The secret-extraction block of `LogMessage::from_bytes`: an empty
header means no secret; otherwise, after stripping the datagram marker,
the first byte must be `'S'` (0x53, secret follows) or `'R'` (0x52, no
secret), anything else is `BadPasswordByte`. -/
def parseSecret (header : List Nat) : Except LogParseError (Option (List Char)) :=
  match header with
  | [] => .ok none
  | _ :: _ =>
    match stripUdp header with
    | [] => .ok none  -- unreachable: stripping keeps a non-empty header non-empty
    | b :: bs =>
      if b = 83 then .ok (some (lossyUtf8 bs))
      else if b = 82 then .ok none
      else .error (.BadPasswordByte b)

/-- `parser.rs` `LogMessage::from_bytes`.  `none` models a Rust panic:
the slice `&data[(idx + 2)..]` panics when `idx + 2` exceeds the buffer
length (the marker byte and one following byte are both consumed). -/
def LogMessage.fromBytes (data : List Nat) : Option (Except LogParseError LogMessage) :=
  match findMarker data with
  | none => some (.error .NoMagicStringEnd)
  | some idx =>
    if idx + 2 ≤ data.length then
      let header := data.take idx
      let rest := data.drop (idx + 2)
      match parseSecret header with
      | .error e => some (.error e)
      | .ok secret =>
        match parseTimestamp (lossyUtf8 rest) with
        | none => some (.error .BadTimestamp)
        | some (ts, body) => some (.ok ⟨ts, body, secret⟩)
    else none

instance {ε α : Type} [DecidableEq ε] [DecidableEq α] : DecidableEq (Except ε α) := fun x y =>
  match x, y with
  | .ok a, .ok b =>
    if h : a = b then .isTrue (congrArg Except.ok h)
    else .isFalse fun hh => h (Except.ok.inj hh)
  | .error a, .error b =>
    if h : a = b then .isTrue (congrArg Except.error h)
    else .isFalse fun hh => h (Except.error.inj hh)
  | .ok _, .error _ => .isFalse fun hh => Except.noConfusion hh
  | .error _, .ok _ => .isFalse fun hh => Except.noConfusion hh

/-- ASCII bytes of a string (test inputs are ASCII). -/
def asciiBytes (s : String) : List Nat := s.toList.map Char.toNat

/-- A well-formed player-identity string `"name<uid><[U:d:ds]><team>"`
exactly as it appears in log lines (nested so that appending a
continuation pushes through by associativity). -/
def mkUserStr (n u : List Char) (d : Char) (ds t : List Char) : List Char :=
  '"' :: (n ++ '<' :: (u ++ '>' :: '<' :: '[' :: 'U' :: ':' :: d :: ':' ::
    (ds ++ ']' :: '>' :: '<' :: (t ++ ['>', '"']))))

/-- The `User` value extracted from `mkUserStr n u d ds t`. -/
def mkUser (n u : List Char) (d : Char) (ds t : List Char) : User :=
  ⟨n, digitsToNat u, '[' :: 'U' :: ':' :: d :: ':' :: (ds ++ [']']), t⟩

/-- Well-formedness of the pieces of a player-identity string: the name
contains no `<` (so the lazy scan stops at the uid bracket) and no
newline (the regex `.` cannot cross one), the uid is a non-empty digit
run fitting `u32`, the universe field is one digit, the account id is a
non-empty digit run, and the team is a word-character run. -/
def goodUser (n u : List Char) (d : Char) (ds t : List Char) : Prop :=
  '<' ∉ n ∧ '\n' ∉ n ∧ u ≠ [] ∧ (∀ c ∈ u, c.isDigit) ∧ digitsToNat u < 2 ^ 32 ∧
    d.isDigit ∧ ds ≠ [] ∧ (∀ c ∈ ds, c.isDigit) ∧ (∀ c ∈ t, isWordChar c)

instance (n u : List Char) (d : Char) (ds t : List Char) :
    Decidable (goodUser n u d ds t) := by
  unfold goodUser; infer_instance

/-! ## Helper lemmas -/

theorem takeWhile_append_cons (p : Char → Bool) (l1 : List Char) (c : Char) (l2 : List Char)
    (h1 : ∀ a ∈ l1, p a) (h2 : ¬ p c) : (l1 ++ c :: l2).takeWhile p = l1 := by
  induction l1 with
  | nil => simp [List.takeWhile, h2]
  | cons a l ih =>
    simp only [List.cons_append, List.takeWhile]
    rw [h1 a (by simp)]
    simp [ih fun b hb => h1 b (by simp [hb])]

theorem dropWhile_append_cons (p : Char → Bool) (l1 : List Char) (c : Char) (l2 : List Char)
    (h1 : ∀ a ∈ l1, p a) (h2 : ¬ p c) : (l1 ++ c :: l2).dropWhile p = c :: l2 := by
  induction l1 with
  | nil => simp [List.dropWhile, h2]
  | cons a l ih =>
    simp only [List.cons_append, List.dropWhile]
    rw [h1 a (by simp)]
    exact ih fun b hb => h1 b (by simp [hb])

theorem userTail_mk (u : List Char) (d : Char) (ds t rest : List Char)
    (hu : u ≠ []) (hud : ∀ c ∈ u, c.isDigit)
    (hd : d.isDigit) (hds : ds ≠ []) (hdsd : ∀ c ∈ ds, c.isDigit)
    (ht : ∀ c ∈ t, isWordChar c) :
    userTail (u ++ '>' :: '<' :: '[' :: 'U' :: ':' :: d :: ':' ::
        (ds ++ ']' :: '>' :: '<' :: (t ++ '>' :: '"' :: rest)))
      = some (u, d, ds, t, rest) := by
  unfold userTail
  rw [takeWhile_append_cons _ _ _ _ hud (by decide),
    dropWhile_append_cons _ _ _ _ hud (by decide)]
  simp only [expectChar, if_pos rfl, hu, if_neg, hd, if_true, reduceIte]
  rw [takeWhile_append_cons _ _ _ _ hdsd (by decide),
    dropWhile_append_cons _ _ _ _ hdsd (by decide)]
  simp only [expectChar, if_pos rfl, hds, reduceIte]
  rw [takeWhile_append_cons _ _ _ _ ht (by decide),
    dropWhile_append_cons _ _ _ _ ht (by decide)]
  simp [expectChar]

theorem scanName_found (acc n tl : List Char) (uid : List Char) (d : Char)
    (ds team r : List Char)
    (hn1 : '<' ∉ n) (hn2 : '\n' ∉ n)
    (htl : userTail tl = some (uid, d, ds, team, r)) :
    scanName acc (n ++ '<' :: tl) = some (acc.reverse ++ n, uid, d, ds, team) := by
  induction n generalizing acc with
  | nil => simp [scanName, htl]
  | cons c n ih =>
    have hc1 : c ≠ '<' := fun h => hn1 (by simp [h])
    have hc2 : c ≠ '\n' := fun h => hn2 (by simp [h])
    simp only [List.cons_append, scanName, if_neg hc1, if_neg hc2, List.append_eq]
    rw [ih (c :: acc) (fun h => hn1 (by simp [h])) (fun h => hn2 (by simp [h]))]
    simp

theorem mkUserStr_length (n u : List Char) (d : Char) (ds t : List Char) :
    (mkUserStr n u d ds t).length = 14 + n.length + u.length + ds.length + t.length := by
  simp [mkUserStr]
  omega

theorem mkUserStr_append (n u : List Char) (d : Char) (ds t rest : List Char) :
    mkUserStr n u d ds t ++ rest =
      '"' :: (n ++ '<' :: (u ++ '>' :: '<' :: '[' :: 'U' :: ':' :: d :: ':' ::
        (ds ++ ']' :: '>' :: '<' :: (t ++ '>' :: '"' :: rest)))) := by
  simp [mkUserStr]

/-- When the input begins with a well-formed identity string, the `user`
parser matches exactly it (leftmost start, lazy name up to the first
`<`) and consumes exactly it. -/
theorem user_mk (n u : List Char) (d : Char) (ds t rest : List Char)
    (h : goodUser n u d ds t) :
    user (mkUserStr n u d ds t ++ rest) = .ok rest (mkUser n u d ds t) := by
  obtain ⟨hn1, hn2, hu, hud, hu32, hd, hds, hdsd, ht⟩ := h
  rw [mkUserStr_append]
  unfold user findUserStart
  rw [if_pos rfl,
    scanName_found [] n _ u d ds t rest hn1 hn2 (userTail_mk u d ds t rest hu hud hd hds hdsd ht)]
  simp only [List.reverse_nil, List.nil_append, if_pos hu32]
  have hlen : 14 + n.length + u.length + ds.length + t.length
      = (mkUserStr n u d ds t).length := (mkUserStr_length n u d ds t).symm
  rw [show ('"' :: (n ++ '<' :: (u ++ '>' :: '<' :: '[' :: 'U' :: ':' :: d :: ':' ::
      (ds ++ ']' :: '>' :: '<' :: (t ++ '>' :: '"' :: rest)))))
      = mkUserStr n u d ds t ++ rest from (mkUserStr_append n u d ds t rest).symm]
  rw [hlen, List.drop_left]
  rfl

theorem tag_head_ne (t0 : Char) (ts : List Char) (c : Char) (l : List Char)
    (h : c ≠ t0) : tag (t0 :: ts) (c :: l) = .fail := by
  have hb : (t0 == c) = false := by
    simp only [beq_eq_false_iff_ne, ne_eq]
    exact fun hh => h hh.symm
  simp [tag, List.isPrefixOf, hb]

theorem tag_head2_ne (t0 t1 : Char) (ts : List Char) (c1 : Char) (l : List Char)
    (h : c1 ≠ t1) : tag (t0 :: t1 :: ts) (t0 :: c1 :: l) = .fail := by
  have hb : (t1 == c1) = false := by
    simp only [beq_eq_false_iff_ne, ne_eq]
    exact fun hh => h hh.symm
  simp [tag, List.isPrefixOf, hb]

theorem tagNoCase_head_ne (t0 : Char) (ts : List Char) (c : Char) (l : List Char)
    (h : c.toLower ≠ t0.toLower) : tagNoCase (t0 :: ts) (c :: l) = .fail := by
  simp only [tagNoCase, List.length_cons, List.take_succ_cons, List.map_cons]
  rw [if_neg fun hh => h (List.cons.inj hh).1]

theorem tagNoCase_head2_ne (t0 t1 : Char) (ts : List Char) (c0 c1 : Char) (l : List Char)
    (h : c1.toLower ≠ t1.toLower) :
    tagNoCase (t0 :: t1 :: ts) (c0 :: c1 :: l) = .fail := by
  simp only [tagNoCase, List.length_cons, List.take_succ_cons, List.map_cons]
  rw [if_neg fun hh => h (List.cons.inj (List.cons.inj hh).2).1]

theorem tag_self (t l2 : List Char) : tag t (t ++ l2) = .ok l2 t := by
  have hp : t.isPrefixOf (t ++ l2) = true :=
    List.isPrefixOf_iff_prefix.mpr (List.prefix_append t l2)
  simp [tag, hp, List.drop_left]

theorem tagNoCase_self (t l2 : List Char) : tagNoCase t (t ++ l2) = .ok l2 t := by
  simp [tagNoCase, List.take_left, List.drop_left]

theorem charP_cons (c : Char) (l : List Char) : charP c (c :: l) = .ok l c := by
  simp [charP]

theorem firstOccur_single (c : Char) (l1 l2 : List Char) (h : c ∉ l1) :
    firstOccur [c] (l1 ++ c :: l2) = some l1.length := by
  induction l1 with
  | nil => simp [firstOccur, List.isPrefixOf]
  | cons a l ih =>
    have ha : (c == a) = false := by
      simp only [beq_eq_false_iff_ne, ne_eq]
      exact fun hh => h (by simp [hh])
    simp [firstOccur, List.isPrefixOf, ha, ih fun hh => h (by simp [hh])]

theorem takeUntil_append (c : Char) (l1 l2 : List Char) (h : c ∉ l1) :
    takeUntil [c] (l1 ++ c :: l2) = .ok (c :: l2) l1 := by
  unfold takeUntil
  rw [firstOccur_single c l1 l2 h]
  simp [List.take_left, List.drop_left]

theorem takeUntil1_append (c : Char) (l1 l2 : List Char) (h : c ∉ l1) (hne : l1 ≠ []) :
    takeUntil1 [c] (l1 ++ c :: l2) = .ok (c :: l2) l1 := by
  unfold takeUntil1
  rw [firstOccur_single c l1 l2 h]
  obtain ⟨m, hl⟩ : ∃ m, l1.length = m + 1 := by
    cases l1 with
    | nil => exact absurd rfl hne
    | cons a t => exact ⟨t.length, rfl⟩
  rw [hl]
  show PRes.ok ((l1 ++ c :: l2).drop (m + 1)) ((l1 ++ c :: l2).take (m + 1)) = .ok (c :: l2) l1
  rw [← hl, List.drop_left, List.take_left]

theorem findMarker_append (h : List Nat) (l : List Nat) (h76 : 76 ∉ h) :
    findMarker (h ++ 76 :: l) = some h.length := by
  induction h with
  | nil => simp [findMarker]
  | cons b r ih =>
    have hb : b ≠ 76 := fun hh => h76 (by simp [hh])
    simp [findMarker, hb, ih fun hh => h76 (by simp [hh])]

theorem drop_two_append (h : List Nat) (x y : Nat) (l : List Nat) :
    (h ++ x :: y :: l).drop (h.length + 2) = l := by
  rw [show h ++ x :: y :: l = (h ++ [x, y]) ++ l by simp]
  rw [show h.length + 2 = (h ++ [x, y]).length by simp]
  exact List.drop_left _ _

/-- Splitting `from_bytes` on a buffer whose header is marker-free: the
result is the secret logic on the header followed by the timestamp logic
on the tail (the byte right after the marker is consumed unexamined). -/
theorem fromBytes_eq (header : List Nat) (sep : Nat) (rest : List Nat) (h76 : 76 ∉ header) :
    LogMessage.fromBytes (header ++ 76 :: sep :: rest)
      = match parseSecret header with
        | .error e => some (.error e)
        | .ok secret =>
          match parseTimestamp (lossyUtf8 rest) with
          | none => some (.error .BadTimestamp)
          | some (ts, body) => some (.ok ⟨ts, body, secret⟩) := by
  have hlen : header.length + 2 ≤ (header ++ 76 :: sep :: rest).length := by
    simp only [List.length_append, List.length_cons]
    omega
  unfold LogMessage.fromBytes
  rw [findMarker_append header _ h76]
  dsimp only
  rw [if_pos hlen, List.take_left, drop_two_append]

theorem pbind_ok {α β : Type} (i : List Char) (v : α) (f : List Char → α → PRes β) :
    pbind (.ok i v) f = f i v := rfl

theorem pbind_fail {α β : Type} (f : List Char → α → PRes β) :
    pbind .fail f = .fail := rfl

theorem orP_fail_left {α : Type} (p q : Parser α) (i : List Char) (h : p i = .fail) :
    orP p q i = q i := by
  unfold orP
  rw [h]

theorem orP_ok_left {α : Type} (p q : Parser α) (i r : List Char) (v : α)
    (h : p i = .ok r v) : orP p q i = .ok r v := by
  unfold orP
  rw [h]

/-! ## Claims -/

/-- C1: the claim states that classify (`MessageType::from_message`) is a
total function returning `Unrecognized` on unmatched input and never
failing, including on a dotted-quad octet above 255 (e.g. `999.0.0.1`) and
on a player-identity uid above the unsigned 32-bit range.  The code
contradicts this: on both message bodies below the shape parsers reach an
`unwrap` on a failed integer conversion (`parse::<u8>` resp.
`parse::<u32>`) and panic, modelled here as `none`. -/
theorem C1_classify_panics :
    MessageType.fromMessage ("rcon from \"999.0.0.1:27015\": command \"hi\"".toList) = none ∧
      MessageType.fromMessage ("\"A<4294967296><[U:1:2]><>\" joined team \"Red\"".toList)
        = none := by
  constructor <;> decide

/-- C2: the claim states that decode_frame (`LogMessage::from_bytes`) is
defined on every input buffer, in particular when the first `'L'` (0x4C)
is the last byte.  The code contradicts this: whenever the marker is
found at `idx` with `idx + 2` beyond the buffer length, the slice
`&data[(idx + 2)..]` panics (modelled as `none`) instead of returning a
result or a declared framing error. -/
theorem C2_decode_frame_panics (data : List Nat) (idx : Nat)
    (h : findMarker data = some idx) (h2 : data.length < idx + 2) :
    LogMessage.fromBytes data = none := by
  unfold LogMessage.fromBytes
  rw [h]
  dsimp only
  rw [if_neg (by omega)]

theorem C2_decode_frame_panics_witness : LogMessage.fromBytes [76] = none :=
  C2_decode_frame_panics [76] 0 (by decide) (by decide)

/-- C3: secret round-trip of decode_frame.  For a line whose header
(after any transport-marker stripping) begins with `'S'` (0x53) followed
by bytes `B`, any decoded result carries
`secret = some (lossy_utf8 B)`; a header beginning with `'R'` (0x52)
yields `secret = none`; any other first header byte `b` makes
`from_bytes` return `BadPasswordByte b` outright. -/
theorem C3_secret_roundtrip (header : List Nat) (sep : Nat) (rest : List Nat)
    (h76 : 76 ∉ header) :
    (∀ B lm, stripUdp header = 83 :: B →
      LogMessage.fromBytes (header ++ 76 :: sep :: rest) = some (.ok lm) →
      lm.secret = some (lossyUtf8 B)) ∧
    (∀ B lm, stripUdp header = 82 :: B →
      LogMessage.fromBytes (header ++ 76 :: sep :: rest) = some (.ok lm) →
      lm.secret = none) ∧
    (∀ b B, stripUdp header = b :: B → b ≠ 83 → b ≠ 82 →
      LogMessage.fromBytes (header ++ 76 :: sep :: rest)
        = some (.error (.BadPasswordByte b))) := by
  have hfb := fromBytes_eq header sep rest h76
  refine ⟨?_, ?_, ?_⟩
  · intro B lm hs hok
    have hne : header ≠ [] := by
      intro hh
      rw [hh] at hs
      rw [show stripUdp [] = ([] : List Nat) from rfl] at hs
      exact absurd hs (by simp)
    have hps : parseSecret header = .ok (some (lossyUtf8 B)) := by
      cases header with
      | nil => exact absurd rfl hne
      | cons a tl =>
        unfold parseSecret
        rw [hs]
        simp
    rw [hps] at hfb
    rw [hok] at hfb
    cases hts : parseTimestamp (lossyUtf8 rest) with
    | none =>
      rw [hts] at hfb
      simp at hfb
    | some p =>
      obtain ⟨ts, body⟩ := p
      rw [hts] at hfb
      simp only [Option.some.injEq] at hfb
      rw [Except.ok.inj hfb]
  · intro B lm hs hok
    have hne : header ≠ [] := by
      intro hh
      rw [hh] at hs
      rw [show stripUdp [] = ([] : List Nat) from rfl] at hs
      exact absurd hs (by simp)
    have hps : parseSecret header = .ok none := by
      cases header with
      | nil => exact absurd rfl hne
      | cons a tl =>
        unfold parseSecret
        rw [hs]
        simp
    rw [hps] at hfb
    rw [hok] at hfb
    cases hts : parseTimestamp (lossyUtf8 rest) with
    | none =>
      rw [hts] at hfb
      simp at hfb
    | some p =>
      obtain ⟨ts, body⟩ := p
      rw [hts] at hfb
      simp only [Option.some.injEq] at hfb
      rw [Except.ok.inj hfb]
  · intro b B hs hb83 hb82
    have hne : header ≠ [] := by
      intro hh
      rw [hh] at hs
      rw [show stripUdp [] = ([] : List Nat) from rfl] at hs
      exact absurd hs (by simp)
    have hps : parseSecret header = .error (.BadPasswordByte b) := by
      cases header with
      | nil => exact absurd rfl hne
      | cons a tl =>
        unfold parseSecret
        rw [hs]
        simp [hb83, hb82]
    rw [hps] at hfb
    exact hfb

theorem C3_secret_roundtrip_witness :
    ({ timestamp := ⟨2024, 2, 9, 8, 0, 50⟩, message := "hi".toList,
        secret := some "nya".toList } : LogMessage).secret
      = some (lossyUtf8 (asciiBytes "nya")) :=
  (C3_secret_roundtrip (asciiBytes "Snya") 32 (asciiBytes "02/09/2024 - 08:00:50: hi")
      (by decide)).1 (asciiBytes "nya") _ (by decide) (by decide)

/-- C4: for every input with the line marker, a well-formed secret
indicator (`parseSecret` succeeds) and a matching fixed-format timestamp
prefix, decode_frame succeeds and `message` is exactly the text
following the consumed timestamp prefix, verbatim. -/
theorem C4_message_body_verbatim (header : List Nat) (sep : Nat) (rest : List Nat)
    (s : Option (List Char)) (ts : Timestamp) (body : List Char)
    (h76 : 76 ∉ header)
    (hsec : parseSecret header = .ok s)
    (hts : parseTimestamp (lossyUtf8 rest) = some (ts, body)) :
    LogMessage.fromBytes (header ++ 76 :: sep :: rest) = some (.ok ⟨ts, body, s⟩) := by
  rw [fromBytes_eq header sep rest h76, hsec, hts]

theorem C4_message_body_verbatim_witness :
    LogMessage.fromBytes
        (asciiBytes "R" ++ 76 :: 32 :: asciiBytes "02/09/2024 - 08:00:50: \"x\" say \"hi\"")
      = some (.ok ⟨⟨2024, 2, 9, 8, 0, 50⟩, "\"x\" say \"hi\"".toList, none⟩) :=
  C4_message_body_verbatim _ _ _ none ⟨2024, 2, 9, 8, 0, 50⟩ ("\"x\" say \"hi\"".toList)
    (by decide) (by decide) (by decide)

/-- C6 counterexample: the claim includes the empty header, but for an
empty header the unprefixed line decodes with `secret = none` while the
all-0xFF-prefixed line fails with `BadPasswordByte 255` (a length-4
header is not stripped, since stripping requires length strictly greater
than 4), so the two results do not have identical secret and body. -/
theorem C6_counterexample :
    LogMessage.fromBytes (asciiBytes "L 02/09/2024 - 08:00:50: hi")
        = some (.ok ⟨⟨2024, 2, 9, 8, 0, 50⟩, "hi".toList, none⟩) ∧
      LogMessage.fromBytes ([255, 255, 255, 255] ++ asciiBytes "L 02/09/2024 - 08:00:50: hi")
        = some (.error (.BadPasswordByte 255)) := by
  constructor <;> decide

/-- C6 (amended): for every non-empty header that is not itself subject
to stripping (it is not longer than 4 bytes with an all-0xFF 4-byte
prefix), prefixing the line with the 4-byte all-0xFF datagram marker
yields the identical decode result; the original claim fails for the
empty header. -/
theorem C6_marker_strip (header : List Nat) (sep : Nat) (rest : List Nat)
    (h76 : 76 ∉ header) (hne : header ≠ [])
    (hstrip : ¬ (4 < header.length ∧ header.take 4 = [255, 255, 255, 255])) :
    LogMessage.fromBytes (([255, 255, 255, 255] ++ header) ++ 76 :: sep :: rest)
      = LogMessage.fromBytes (header ++ 76 :: sep :: rest) := by
  have h76b : 76 ∉ [255, 255, 255, 255] ++ header := by
    simp only [List.mem_append, not_or]
    exact ⟨by decide, h76⟩
  rw [fromBytes_eq _ sep rest h76b, fromBytes_eq header sep rest h76]
  have hps : parseSecret ([255, 255, 255, 255] ++ header) = parseSecret header := by
    cases header with
    | nil => exact absurd rfl hne
    | cons a tl =>
      have hstr : stripUdp (255 :: 255 :: 255 :: 255 :: a :: tl) = a :: tl := by
        unfold stripUdp
        rw [if_pos]
        · rfl
        · exact ⟨by simp only [List.length_cons]; omega, rfl⟩
      have hstr2 : stripUdp (a :: tl) = a :: tl := by
        unfold stripUdp
        rw [if_neg hstrip]
      show parseSecret (255 :: 255 :: 255 :: 255 :: a :: tl) = parseSecret (a :: tl)
      unfold parseSecret
      rw [hstr, hstr2]
  rw [hps]

theorem C6_marker_strip_witness :
    LogMessage.fromBytes
        (([255, 255, 255, 255] ++ asciiBytes "R") ++ 76 :: 32 :: asciiBytes "02/09/2024 - 08:00:50: hi")
      = LogMessage.fromBytes (asciiBytes "R" ++ 76 :: 32 :: asciiBytes "02/09/2024 - 08:00:50: hi") :=
  C6_marker_strip _ _ _ (by decide) (by decide) (by decide)

/-- C7 counterexample: the claim states both parenthesized forms parse,
but the key/value primitive rejects the unquoted form `(key value)` —
after the space it requires an opening double quote — while the quoted
form `(key "value")` parses. -/
theorem C7_counterexample :
    kv_pair ("(CRC 505b)".toList) = .fail ∧
      kv_pair ("(CRC \"505b\")".toList) = .ok [] ("CRC".toList, "505b".toList) := by
  constructor <;> decide

/-- C7 (amended): only the quoted form is accepted: for every key (a run
up to the next space, hence containing no space) and every value not
containing a double quote, `(key "value")` parses to the pair
`(key, value)`; the unquoted form `(key value)` fails. -/
theorem C7_kv_pair_quoted (key value rest : List Char)
    (hk : ' ' ∉ key) (hv : '"' ∉ value) :
    kv_pair ('(' :: (key ++ ' ' :: '"' :: (value ++ '"' :: ')' :: rest)))
      = .ok rest (key, value) := by
  unfold kv_pair delimited preceded
  simp only [charP_cons, pbind_ok, takeUntil_append ' ' key _ hk,
    takeUntil_append '"' value _ hv]

theorem C7_kv_pair_quoted_witness :
    kv_pair ('(' :: ("CRC".toList ++ ' ' :: '"' :: ("505b".toList ++ '"' :: ')' :: [])))
      = .ok [] ("CRC".toList, "505b".toList) :=
  C7_kv_pair_quoted "CRC".toList "505b".toList [] (by decide) (by decide)

/-- C8 counterexample: the claim states the identity parser accepts
`[U:12:345]` (a first digit run longer than one digit), but the regex
`\[U:\d:\d+\]` allows exactly one digit there, so the parse fails. -/
theorem C8_counterexample : user ("\"A<1><[U:12:345]><>\"".toList) = .fail := by
  decide

/-- C8 (amended): the persistent-account-id pattern is
`[U:<single digit>:<digit-run>]`: the parser accepts it for every single
digit `d` and non-empty digit run `ds` (here at fixed name `A`, uid `1`,
empty team), and rejects a multi-digit first run. -/
theorem C8_steamid_form (d : Char) (ds rest : List Char)
    (hd : d.isDigit) (hds1 : ds ≠ []) (hds : ∀ c ∈ ds, c.isDigit) :
    user (mkUserStr ['A'] ['1'] d ds [] ++ rest)
      = .ok rest (mkUser ['A'] ['1'] d ds []) :=
  user_mk ['A'] ['1'] d ds [] rest
    ⟨by decide, by decide, by decide, by decide, by decide, hd, hds1, hds, by decide⟩

theorem C8_steamid_form_witness :
    user (mkUserStr ['A'] ['1'] '1' ['3', '4', '5'] [] ++ [])
      = .ok [] (mkUser ['A'] ['1'] '1' ['3', '4', '5'] []) :=
  C8_steamid_form '1' ['3', '4', '5'] [] (by decide) (by decide) (by decide)

/-- C9 counterexample: the claim states that a successful identity parse
always matches at the start of the input and returns the input minus the
matched substring.  On `x"A<1><[U:1:2]><>"` the unanchored regex matches
at offset 1, the parse succeeds, and the remainder is the input minus
its first 17 characters (the match length), i.e. `"`, so the input is
not the matched substring followed by the returned remainder. -/
theorem C9_counterexample :
    user ("x\"A<1><[U:1:2]><>\"".toList)
        = .ok ['"'] ⟨['A'], 1, "[U:1:2]".toList, []⟩ ∧
      "x\"A<1><[U:1:2]><>\"".toList ≠ "\"A<1><[U:1:2]><>\"".toList ++ ['"'] := by
  constructor <;> decide

/-- C9 (amended): when the input begins with a well-formed identity
pattern the parser consumes exactly the matched substring and returns
exactly the following input; in general the regex search is unanchored,
and on an offset match the parser removes match-length characters from
the front instead of the matched substring. -/
theorem C9_user_consumes_prefix (n u : List Char) (d : Char) (ds t rest : List Char)
    (h : goodUser n u d ds t) :
    user (mkUserStr n u d ds t ++ rest) = .ok rest (mkUser n u d ds t) :=
  user_mk n u d ds t rest h

theorem C9_user_consumes_prefix_witness :
    user (mkUserStr "Bob".toList ['7'] '1' ['9'] "Red".toList ++ " hi".toList)
      = .ok (" hi".toList) (mkUser "Bob".toList ['7'] '1' ['9'] "Red".toList) :=
  C9_user_consumes_prefix _ _ _ _ _ _ (by decide)

/-- C10 counterexample: the claim states that for every body made of a
fully matched shape followed by trailing text, classify returns that
shape's event.  The body below is fully matched by `chat_message`
(the identity's lazy name absorbs `loading map "` ... via the unanchored
search the match starts at offset 21), yet with trailing `!` classify
returns the earlier-precedence `loading_map`'s event instead. -/
theorem C10_counterexample :
    chat_message ("loading map \"\n\"\nzzzzz\" say \"<1><[U:1:2]><>\"".toList)
        = .ok [] (.ChatMessage ⟨" say \"".toList, 1, "[U:1:2]".toList, []⟩
            "<1><[U:1:2]><>".toList false) ∧
      MessageType.fromMessage ("loading map \"\n\"\nzzzzz\" say \"<1><[U:1:2]><>\"".toList
          ++ "!".toList)
        = some (.LoadingMap ['\n']) ∧
      MessageType.LoadingMap ['\n']
        ≠ .ChatMessage ⟨" say \"".toList, 1, "[U:1:2]".toList, []⟩
            "<1><[U:1:2]><>".toList false := by
  refine ⟨by decide, by decide, by decide⟩

/-- C10 (amended): classify matches against a prefix only and discards
the unconsumed remainder: whenever the dispatcher's first succeeding
shape parser returns an event with leftover input, classify returns that
event (never `Unknown`); but surrounding text can change which parser
succeeds first, so the result need not be the shape that fully matches a
prefix. -/
theorem C10_remainder_discarded (i rem : List Char) (m : MessageType)
    (h : get_message_type i = .ok rem m) :
    MessageType.fromMessage i = some m := by
  unfold MessageType.fromMessage
  rw [h]

theorem C10_remainder_discarded_witness :
    MessageType.fromMessage ("log file closedXYZ".toList) = some .LogFileClosed :=
  C10_remainder_discarded ("log file closedXYZ".toList) ("log file closedXYZ".toList)
    .LogFileClosed (by decide)

theorem orP_fail_both {α : Type} (p q : Parser α) (i : List Char)
    (hp : p i = .fail) (hq : q i = .fail) : orP p q i = .fail := by
  rw [orP_fail_left _ _ _ hp]
  exact hq

/-- C5: the dispatcher tries the shape parsers in the fixed precedence
order written in `get_message_type` (see its definition), and for every
message body consisting of a well-formed player identity, the literal
text `triggered "revenge" against` (with its surrounding spaces), and a
second well-formed player identity, classification yields the
player-vs-player action event — not joined-team and not `Unknown`: the
seven literal-led parsers fail on the leading quote, and chat, connect
and disconnect fail on the character right after the first identity. -/
theorem C5_revenge_precedence (n1 u1 : List Char) (d1 : Char) (ds1 t1 : List Char)
    (n2 u2 : List Char) (d2 : Char) (ds2 t2 : List Char)
    (h1 : goodUser n1 u1 d1 ds1 t1) (h2 : goodUser n2 u2 d2 ds2 t2) :
    MessageType.fromMessage
        (mkUserStr n1 u1 d1 ds1 t1
          ++ (" triggered \"revenge\" against ".toList ++ mkUserStr n2 u2 d2 ds2 t2))
      = some (.InterPlayerAction (mkUser n1 u1 d1 ds1 t1) "revenge".toList
          (mkUser n2 u2 d2 ds2 t2)) := by
  set M2 := mkUserStr n2 u2 d2 ds2 t2 with hM2
  set rest1 := " triggered \"revenge\" against ".toList ++ M2 with hrest1
  set B := mkUserStr n1 u1 d1 ds1 t1 ++ rest1 with hB
  have hBZ : B = '"' :: (n1 ++ '<' :: (u1 ++ '>' :: '<' :: '[' :: 'U' :: ':' :: d1 :: ':' ::
      (ds1 ++ ']' :: '>' :: '<' :: (t1 ++ '>' :: '"' :: rest1)))) := by
    rw [hB]
    exact mkUserStr_append n1 u1 d1 ds1 t1 rest1
  have huser : user B = .ok rest1 (mkUser n1 u1 d1 ds1 t1) := by
    rw [hB]
    exact user_mk n1 u1 d1 ds1 t1 rest1 h1
  have hr1 : rest1 = ' ' :: 't' :: ("riggered \"revenge\" against ".toList ++ M2) := by
    rw [hrest1]
    rfl
  have h01 : log_file_started B = .fail := by
    unfold log_file_started
    rw [hBZ, show ("log file started ").toList = 'l' :: "og file started ".toList from rfl,
      tagNoCase_head_ne 'l' _ '"' _ (by decide)]
    rfl
  have h02 : log_file_closed B = .fail := by
    unfold log_file_closed
    rw [hBZ, show ("log file closed").toList = 'l' :: "og file closed".toList from rfl,
      tagNoCase_head_ne 'l' _ '"' _ (by decide)]
    rfl
  have h03 : server_cvars_start B = .fail := by
    unfold server_cvars_start
    rw [hBZ, show ("server cvars start").toList = 's' :: "erver cvars start".toList from rfl,
      tagNoCase_head_ne 's' _ '"' _ (by decide)]
    rfl
  have h04 : server_cvars_end B = .fail := by
    unfold server_cvars_end
    rw [hBZ, show ("server cvars end").toList = 's' :: "erver cvars end".toList from rfl,
      tagNoCase_head_ne 's' _ '"' _ (by decide)]
    rfl
  have h05 : loading_map B = .fail := by
    unfold loading_map
    rw [hBZ, show ("loading map ").toList = 'l' :: "oading map ".toList from rfl,
      tag_head_ne 'l' _ '"' _ (by decide)]
    rfl
  have h06 : starting_map B = .fail := by
    unfold starting_map
    rw [hBZ, show ("started map ").toList = 's' :: "tarted map ".toList from rfl,
      tagNoCase_head_ne 's' _ '"' _ (by decide)]
    rfl
  have h07 : rcon B = .fail := by
    unfold rcon
    rw [hBZ, show ("rcon from ").toList = 'r' :: "con from ".toList from rfl,
      tagNoCase_head_ne 'r' _ '"' _ (by decide)]
    rfl
  have h08 : chat_message B = .fail := by
    unfold chat_message
    rw [huser]
    dsimp only [pbind]
    rw [hr1]
    unfold orP
    rw [show (" say ").toList = ' ' :: 's' :: "ay ".toList from rfl,
      tag_head2_ne ' ' 's' _ 't' _ (by decide),
      show (" say_team ").toList = ' ' :: 's' :: "ay_team ".toList from rfl,
      tag_head2_ne ' ' 's' _ 't' _ (by decide)]
  have h09 : connect_message B = .fail := by
    unfold connect_message
    rw [huser]
    dsimp only [pbind]
    rw [hr1, show (" connected, address ").toList
        = ' ' :: 'c' :: "onnected, address ".toList from rfl,
      tag_head2_ne ' ' 'c' _ 't' _ (by decide)]
  have h10 : disconnect_message B = .fail := by
    unfold disconnect_message
    rw [huser]
    dsimp only [pbind]
    rw [hr1, show (" disconnected (reason ").toList
        = ' ' :: 'd' :: "isconnected (reason ".toList from rfl,
      tag_head2_ne ' ' 'd' _ 't' _ (by decide)]
  have h11 : inter_player_action B
      = .ok [] (.InterPlayerAction (mkUser n1 u1 d1 ds1 t1) "revenge".toList
          (mkUser n2 u2 d2 ds2 t2)) := by
    unfold inter_player_action
    rw [huser]
    dsimp only [pbind]
    rw [show rest1 = " triggered ".toList ++ ("\"revenge\" against ".toList ++ M2) from by
      rw [hrest1]; rfl]
    rw [tagNoCase_self (" triggered ".toList) _]
    dsimp only [pbind]
    rw [show ("\"revenge\" against ").toList ++ M2
        = '"' :: ("revenge".toList ++ '"' :: (" against ".toList ++ M2)) from rfl]
    unfold delimited
    rw [charP_cons]
    dsimp only [pbind]
    rw [takeUntil1_append '"' ("revenge".toList) _ (by decide) (by decide)]
    dsimp only [pbind]
    rw [charP_cons]
    dsimp only [pbind]
    rw [tagNoCase_self (" against ".toList) M2]
    dsimp only [pbind]
    rw [hM2, show mkUserStr n2 u2 d2 ds2 t2 = mkUserStr n2 u2 d2 ds2 t2 ++ []
        from (List.append_nil _).symm,
      user_mk n2 u2 d2 ds2 t2 [] h2]
  have f3 := orP_fail_both _ _ B h01 h02
  have f4 := orP_fail_both _ _ B f3 h03
  have f5 := orP_fail_both _ _ B f4 h04
  have f6 := orP_fail_both _ _ B f5 h05
  have f7 := orP_fail_both _ _ B f6 h06
  have f8 := orP_fail_both _ _ B f7 h07
  have f9 := orP_fail_both _ _ B f8 h08
  have f10 := orP_fail_both _ _ B f9 h09
  have f11 := orP_fail_both _ _ B f10 h10
  have f12 : orP (orP (orP (orP (orP (orP (orP (orP (orP (orP
      log_file_started log_file_closed) server_cvars_start) server_cvars_end)
      loading_map) starting_map) rcon) chat_message) connect_message)
      disconnect_message) inter_player_action B
      = .ok [] (.InterPlayerAction (mkUser n1 u1 d1 ds1 t1) "revenge".toList
          (mkUser n2 u2 d2 ds2 t2)) := by
    rw [orP_fail_left _ _ B f11]
    exact h11
  unfold MessageType.fromMessage get_message_type
  rw [orP_ok_left _ _ B _ _ f12]

theorem C5_revenge_precedence_witness :
    MessageType.fromMessage
        (mkUserStr "Alice".toList ['6'] '1' "132412".toList "Red".toList
          ++ (" triggered \"revenge\" against ".toList
            ++ mkUserStr "Bob".toList ['7'] '1' ['9'] []))
      = some (.InterPlayerAction
          (mkUser "Alice".toList ['6'] '1' "132412".toList "Red".toList)
          "revenge".toList (mkUser "Bob".toList ['7'] '1' ['9'] [])) :=
  C5_revenge_precedence _ _ _ _ _ _ _ _ _ _ (by decide) (by decide)
